import Mathlib

/-
Verification of the value-conversion layer of the redshift_connector driver.

The constructor facade is embedded from src/redshift_connector/objects.py
(DBAPI 2.0 helpers Date, Time, Timestamp, DateFromTicks, TimeFromTicks,
TimestampFromTicks, Binary).  The per-type decode functions of the value
codec are not part of the provided sources; they are modelled from the
specification (section 4.1 of spec.md) together with the expected-value
table of src/test/integration/datatype/_generate_test_datatype_tables.py,
and every definition modelled this way is marked in its doc comment.
-/

deriving instance DecidableEq for Except

/-- Error taxonomy of the value codec (spec section 7). -/
inductive DecodeError where
  | FormatError
  | RangeError
  | UnknownTimezoneError
  | TypeMismatchError
deriving DecidableEq
/-- Calendar date produced by the date decoder (fields of datetime.date). -/
structure PgDate where
  year : Nat
  month : Nat
  day : Nat
deriving DecidableEq
/-- Time of day with microsecond precision (fields of datetime.time). -/
structure TimeOfDay where
  hour : Nat
  minute : Nat
  second : Nat
  microsecond : Nat
deriving DecidableEq
/-- Local (not yet normalized) date plus time of day, as parsed from text. -/
structure LocalDT where
  year : Nat
  month : Nat
  day : Nat
  t : TimeOfDay
deriving DecidableEq
/-- UTC instant produced by the timestamptz decoder (fields of a
timezone-aware datetime.datetime already expressed in UTC). -/
structure PgDatetime where
  year : Int
  month : Int
  day : Int
  hour : Int
  minute : Int
  second : Int
  microsecond : Int
deriving DecidableEq
/-- Exact decimal value: mant / 10 ^ scale (digit string plus scale,
spec section 9: never a binary floating-point type). -/
structure PgDecimal where
  mant : Int
  scale : Nat
deriving DecidableEq
/-- Result of the C library localtime call as used by objects.py:
the first six fields of a struct tm, in the order year, month, day,
hour, minute, second (Python time.localtime(ticks)[:6]). -/
structure Tm where
  tm_year : Int
  tm_mon : Int
  tm_mday : Int
  tm_hour : Int
  tm_min : Int
  tm_sec : Int
deriving DecidableEq
/-- Splits a character list on a separator character; the separator is
dropped and empty groups are kept. -/
def splitOnChar (sep : Char) : List Char → List (List Char)
  | [] => [[]]
  | c :: cs =>
    let r := splitOnChar sep cs
    if c = sep then [] :: r
    else
      match r with
      | [] => [[c]]
      | g :: gs => (c :: g) :: gs

/-- Whitespace tokenization: split on spaces and drop empty tokens. -/
def words (cs : List Char) : List (List Char) :=
  (splitOnChar ' ' cs).filter (fun g => !g.isEmpty)

/-- Reads a nonempty all-digit character list as a base-10 natural number. -/
def digitsToNat? (cs : List Char) : Option Nat :=
  if cs.isEmpty then none
  else if cs.all Char.isDigit then
    some (cs.foldl (fun a c => a * 10 + (c.toNat - 48)) 0)
  else none

/-- The base-10 digit character of a digit value below ten. -/
def digitChar (k : Nat) : Char := Char.ofNat (48 + k)

/-- Base-10 rendering of a natural number as a digit character list. -/
def natDigits (n : Nat) : List Char :=
  if h : n < 10 then [digitChar n]
  else natDigits (n / 10) ++ [digitChar (n % 10)]
termination_by n
decreasing_by exact Nat.div_lt_self (by omega) (by decide)

/-- Day number of the start of March-based year y within a 400-year era
(365 days per year plus a leap day after each year divisible by 4 except
centuries, which the era-level formula removes). -/
def gN (y : Nat) : Nat := 365 * y + y / 4 - y / 100

/-- Bounded search for the March-based year of era containing day doe:
starting from year y, advance while the next year still starts at or
before doe, spending one unit of fuel per step. -/
def yoeGo (doe : Nat) : Nat → Nat → Nat
  | y, 0 => y
  | y, fuel + 1 => if gN (y + 1) ≤ doe then yoeGo doe (y + 1) fuel else y

/-- Year of era (0..399) containing day-of-era doe. -/
def yoeOf (doe : Nat) : Nat := yoeGo doe 0 399

/-- Era index (400-year Gregorian cycle) of a day count relative to
1970-01-01, after shifting the epoch to 0000-03-01. -/
def eraOf (z : Int) : Int := (z + 719468) / 146097

/-- Year of era of the day count z, as an integer. -/
def yoeI (z : Int) : Int := (yoeOf ((z + 719468) % 146097).toNat : Int)

/-- Day of the March-based year (0..365) of the day count z. -/
def doyI (z : Int) : Int :=
  (z + 719468) % 146097 - (365 * yoeI z + yoeI z / 4 - yoeI z / 100)

/-- March-based month index (0..11) of the day count z. -/
def mpI (z : Int) : Int := (5 * doyI z + 2) / 153

/-- Civil (January-based) month of the day count z. -/
def civilMonthI (z : Int) : Int := if mpI z < 10 then mpI z + 3 else mpI z - 9

/-- Civil day of month of the day count z. -/
def civilDayI (z : Int) : Int := doyI z - (153 * mpI z + 2) / 5 + 1

/-- Civil year of the day count z. -/
def civilYearI (z : Int) : Int :=
  eraOf z * 400 + yoeI z + (if civilMonthI z ≤ 2 then 1 else 0)

/-- Day count relative to 1970-01-01 of a proleptic Gregorian civil date
(the standard days-from-civil computation). -/
def daysFromCivil (y m d : Int) : Int :=
  (if m ≤ 2 then y - 1 else y) / 400 * 146097
    + 365 * ((if m ≤ 2 then y - 1 else y) % 400)
    + (if m ≤ 2 then y - 1 else y) % 400 / 4
    - (if m ≤ 2 then y - 1 else y) % 400 / 100
    + (153 * (if 2 < m then m - 3 else m + 9) + 2) / 5 + d - 1 - 719468

/-- Native value of datetime.date, as built by the constructor facade. -/
structure PyDate where
  year : Int
  month : Int
  day : Int
deriving DecidableEq
/-- Native value of datetime.time, as built by the constructor facade. -/
structure PyTime where
  hour : Int
  minute : Int
  second : Int
  microsecond : Int
deriving DecidableEq
/-- Native value of datetime.datetime, as built by the constructor facade. -/
structure PyDatetime where
  year : Int
  month : Int
  day : Int
  hour : Int
  minute : Int
  second : Int
deriving DecidableEq
/-- True when the year is a Gregorian leap year. -/
def isLeap (y : Int) : Bool := y % 4 == 0 && (y % 100 != 0 || y % 400 == 0)

/-- Number of days in a month of a given year. -/
def daysInMonth (y m : Int) : Int :=
  if m = 2 then (if isLeap y then 29 else 28)
  else if m = 4 ∨ m = 6 ∨ m = 9 ∨ m = 11 then 30
  else 31

/-- Embeds Date of objects.py: builds a datetime.date value; the
datetime.date constructor validates its calendar fields (year 1..9999,
month 1..12, day 1..days in month) and raises ValueError, the range
error of the spec taxonomy, otherwise. -/
def Date (year month day : Int) : Except DecodeError PyDate :=
  if 1 ≤ year ∧ year ≤ 9999 ∧ 1 ≤ month ∧ month ≤ 12 ∧ 1 ≤ day ∧ day ≤ daysInMonth year month
  then .ok ⟨year, month, day⟩ else .error .RangeError

/-- Embeds Time of objects.py: builds a datetime.time value with
microsecond zero; the datetime.time constructor validates hour 0..23,
minute 0..59, second 0..59. -/
def Time (hour minute second : Int) : Except DecodeError PyTime :=
  if 0 ≤ hour ∧ hour ≤ 23 ∧ 0 ≤ minute ∧ minute ≤ 59 ∧ 0 ≤ second ∧ second ≤ 59
  then .ok ⟨hour, minute, second, 0⟩ else .error .RangeError

/-- Embeds Timestamp of objects.py: builds a datetime.datetime value;
the constructor validates all six calendar fields. -/
def Timestamp (year month day hour minute second : Int) : Except DecodeError PyDatetime :=
  if 1 ≤ year ∧ year ≤ 9999 ∧ 1 ≤ month ∧ month ≤ 12 ∧ 1 ≤ day ∧ day ≤ daysInMonth year month
      ∧ 0 ≤ hour ∧ hour ≤ 23 ∧ 0 ≤ minute ∧ minute ≤ 59 ∧ 0 ≤ second ∧ second ≤ 59
  then .ok ⟨year, month, day, hour, minute, second⟩ else .error .RangeError

/-- Embeds the C localtime call used by objects.py through Python
time.localtime: converts a count of seconds since the Unix epoch to
civil calendar fields of the local timezone, the latter given
explicitly as an offset tzOff in seconds east of UTC. -/
def localtime (tzOff ticks : Int) : Tm :=
  { tm_year := civilYearI ((ticks + tzOff) / 86400)
    tm_mon := civilMonthI ((ticks + tzOff) / 86400)
    tm_mday := civilDayI ((ticks + tzOff) / 86400)
    tm_hour := (ticks + tzOff) % 86400 / 3600
    tm_min := (ticks + tzOff) % 86400 / 60 % 60
    tm_sec := (ticks + tzOff) % 86400 % 60 }

/-- Seconds since the Unix epoch denoted by a struct tm, read back from
its civil fields. -/
def tmAbsSeconds (tm : Tm) : Int :=
  daysFromCivil tm.tm_year tm.tm_mon tm.tm_mday * 86400
    + tm.tm_hour * 3600 + tm.tm_min * 60 + tm.tm_sec

/-- Embeds DateFromTicks of objects.py: Date applied to the first three
fields of localtime(ticks). -/
def DateFromTicks (tzOff ticks : Int) : Except DecodeError PyDate :=
  Date (localtime tzOff ticks).tm_year (localtime tzOff ticks).tm_mon
    (localtime tzOff ticks).tm_mday

/-- Embeds TimeFromTicks of objects.py: Time applied to fields three to
five of localtime(ticks). -/
def TimeFromTicks (tzOff ticks : Int) : Except DecodeError PyTime :=
  Time (localtime tzOff ticks).tm_hour (localtime tzOff ticks).tm_min
    (localtime tzOff ticks).tm_sec

/-- Embeds TimestampFromTicks of objects.py: Timestamp applied to the
first six fields of localtime(ticks). -/
def TimestampFromTicks (tzOff ticks : Int) : Except DecodeError PyDatetime :=
  Timestamp (localtime tzOff ticks).tm_year (localtime tzOff ticks).tm_mon
    (localtime tzOff ticks).tm_mday (localtime tzOff ticks).tm_hour
    (localtime tzOff ticks).tm_min (localtime tzOff ticks).tm_sec

/-- Conversion of a non-integer ticks value to the integer second count
passed to the C localtime, as CPython time.localtime performs it: the
value is rounded toward negative infinity (CPython uses the rounding
mode PyTime round floor when converting a float object to a time_t). -/
def pyTimeT (q : ℚ) : Int := q.num.fdiv (q.den : Int)

/-- Truncation of a rational toward zero. -/
def ratTrunc (q : ℚ) : Int := q.num.tdiv (q.den : Int)

/-- DateFromTicks on a fractional ticks value: CPython converts the
float to a time_t by flooring before calling localtime. -/
def DateFromTicksFrac (tzOff : Int) (ticks : ℚ) : Except DecodeError PyDate :=
  DateFromTicks tzOff (pyTimeT ticks)

/-- TimeFromTicks on a fractional ticks value. -/
def TimeFromTicksFrac (tzOff : Int) (ticks : ℚ) : Except DecodeError PyTime :=
  TimeFromTicks tzOff (pyTimeT ticks)

/-- TimestampFromTicks on a fractional ticks value. -/
def TimestampFromTicksFrac (tzOff : Int) (ticks : ℚ) : Except DecodeError PyDatetime :=
  TimestampFromTicks tzOff (pyTimeT ticks)

/-- Embeds Binary of objects.py, which returns its argument unchanged. -/
def Binary {α : Type} (value : α) : α := value

/-- ASCII lowercase of a single character. -/
def asciiLower (c : Char) : Char :=
  if 'A' ≤ c ∧ c ≤ 'Z' then Char.ofNat (c.toNat + 32) else c

/-- ASCII lowercase of a character list. -/
def lowerL (cs : List Char) : List Char := cs.map asciiLower

/-- Synonyms accepted for true by the bool decoder, in lowercase. -/
def trueSyns : List (List Char) :=
  ["true".data, "t".data, "y".data, "yes".data, "1".data]

/-- Synonyms accepted for false by the bool decoder, in lowercase. -/
def falseSyns : List (List Char) :=
  ["false".data, "f".data, "n".data, "no".data, "0".data]

/-- Modelled from the spec: the bool decode function of the value codec
(not part of the provided sources); case-insensitive match of the input
against the synonym sets of spec section 4.1, any other input failing
with FormatError. -/
def decodeBool (s : String) : Except DecodeError Bool :=
  if lowerL s.data ∈ trueSyns then .ok true
  else if lowerL s.data ∈ falseSyns then .ok false
  else .error .FormatError

/-- Reads an optionally negated base-10 integer. -/
def parseInt? (cs : List Char) : Option Int :=
  if cs.head? = some '-' then (digitsToNat? cs.tail).map (fun n => -(n : Int))
  else (digitsToNat? cs).map (fun n => (n : Int))

/-- Modelled from the spec: the shared signed-integer decode function of
the value codec (not part of the provided sources); parses base-10 and
fails with RangeError outside the inclusive bounds lo..hi of the
declared bit width (spec section 4.1). -/
def decodeIntWidth (lo hi : Int) (s : String) : Except DecodeError Int :=
  match parseInt? s.data with
  | none => .error .FormatError
  | some n => if lo ≤ n ∧ n ≤ hi then .ok n else .error .RangeError

/-- Modelled from the spec: int2 decode, range -32768..32767. -/
def decodeInt2 (s : String) : Except DecodeError Int :=
  decodeIntWidth (-32768) 32767 s

/-- Modelled from the spec: int4 decode, range -2147483648..2147483647. -/
def decodeInt4 (s : String) : Except DecodeError Int :=
  decodeIntWidth (-2147483648) 2147483647 s

/-- Modelled from the spec: int8 decode. -/
def decodeInt8 (s : String) : Except DecodeError Int :=
  decodeIntWidth (-9223372036854775808) 9223372036854775807 s

/-- Exact rational value denoted by a decimal. -/
def decToRat (d : PgDecimal) : ℚ := (d.mant : ℚ) / 10 ^ d.scale

/-- Modelled from the spec: the numeric decode function of the value
codec (not part of the provided sources); parses the text into an exact
decimal of digits and scale, preserving every digit and the trailing
scale, with no binary floating-point intermediate (spec sections 4.1
and 9). -/
def decodeNumeric (s : String) : Except DecodeError PgDecimal :=
  if s.data.head? = some '-' then
    match splitOnChar '.' s.data.tail with
    | [ip] =>
      match digitsToNat? ip with
      | some n => .ok ⟨-(n : Int), 0⟩
      | none => .error .FormatError
    | [ip, fp] =>
      match digitsToNat? ip, digitsToNat? fp with
      | some n, some f => .ok ⟨-((n * 10 ^ fp.length + f : Nat) : Int), fp.length⟩
      | _, _ => .error .FormatError
    | _ => .error .FormatError
  else
    match splitOnChar '.' s.data with
    | [ip] =>
      match digitsToNat? ip with
      | some n => .ok ⟨(n : Int), 0⟩
      | none => .error .FormatError
    | [ip, fp] =>
      match digitsToNat? ip, digitsToNat? fp with
      | some n, some f => .ok ⟨((n * 10 ^ fp.length + f : Nat) : Int), fp.length⟩
      | _, _ => .error .FormatError
    | _ => .error .FormatError

/-- Validation and end-of-day normalization of parsed time fields:
24:00:00 is accepted as the end-of-day sentinel and normalizes to
00:00:00; otherwise the fields must be an ordinary time of day. -/
def mkTimeOfDay (h m s micro : Nat) : Option TimeOfDay :=
  if h = 24 ∧ m = 0 ∧ s = 0 ∧ micro = 0 then some ⟨0, 0, 0, 0⟩
  else if h ≤ 23 ∧ m ≤ 59 ∧ s ≤ 59 ∧ micro ≤ 999999 then some ⟨h, m, s, micro⟩
  else none

/-- Reads HH:MM or HH:MM:SS fields and attaches a microsecond count. -/
def parseHMS (cs : List Char) (micro : Nat) : Option TimeOfDay :=
  match splitOnChar ':' cs with
  | [a, b] => do mkTimeOfDay (← digitsToNat? a) (← digitsToNat? b) 0 micro
  | [a, b, c] => do mkTimeOfDay (← digitsToNat? a) (← digitsToNat? b) (← digitsToNat? c) micro
  | _ => none

/-- Modelled from the spec and the expected-value table of the datatype
test generator: a time field with an optional dot-separated suffix; the
digits after the dot are read as a literal microsecond count (the table
maps the text 22:44:54.18 CET to microsecond 18, not 180000). -/
def parseTimeFields (cs : List Char) : Option TimeOfDay :=
  match splitOnChar '.' cs with
  | [hms] => parseHMS hms 0
  | [hms, frac] => do
    let micro ← digitsToNat? frac
    if micro ≤ 999999 then parseHMS hms micro else none
  | _ => none

/-- Month names accepted in the month-name date grammar. -/
def monthNames : List (List Char × Nat) :=
  [("Jan".data, 1), ("Feb".data, 2), ("Mar".data, 3), ("Apr".data, 4),
   ("May".data, 5), ("Jun".data, 6), ("Jul".data, 7), ("Aug".data, 8),
   ("Sep".data, 9), ("Oct".data, 10), ("Nov".data, 11), ("Dec".data, 12)]

/-- Numeric month of a month-name token. -/
def monthFromName (cs : List Char) : Option Nat := monthNames.lookup cs

/-- Modelled from the spec: the static timezone abbreviation table of
spec section 6, mapping recognized names to fixed UTC offsets in
minutes; entries are those exercised by the datatype test generator. -/
def tzTable : List (List Char × Int) :=
  [("UTC".data, 0), ("GMT".data, 0), ("EST".data, -300), ("WDT".data, 540),
   ("CET".data, 60), ("WET".data, 0), ("US/Pacific".data, -480)]

/-- Fixed UTC offset in minutes of a timezone token. -/
def lookupTz (cs : List Char) : Option Int := tzTable.lookup cs

/-- Number of days in a month, on natural-number fields. -/
def daysInMonthN (y m : Nat) : Nat :=
  if m = 2 then (if y % 4 = 0 ∧ (y % 100 ≠ 0 ∨ y % 400 = 0) then 29 else 28)
  else if m = 4 ∨ m = 6 ∨ m = 9 ∨ m = 11 then 30
  else 31

/-- Validates parsed date fields: the month and day must be in calendar
range; in line with spec section 4.1 the year has no magnitude bound. -/
def mkDateFields (y m d : Nat) : Option (Nat × Nat × Nat) :=
  if 1 ≤ m ∧ m ≤ 12 ∧ 1 ≤ d ∧ d ≤ daysInMonthN y m then some (y, m, d) else none

/-- Modelled from the spec: the numeric date grammars of spec section
4.1 (YYYY-MM-DD, MM-DD-YYYY, MM.DD.YYYY); in a dashed date the first
component is the year exactly when it is longer than two digits. -/
def parseDateFields (cs : List Char) : Option (Nat × Nat × Nat) :=
  match splitOnChar '-' cs with
  | [a, b, c] =>
    if 2 < a.length then do
      mkDateFields (← digitsToNat? a) (← digitsToNat? b) (← digitsToNat? c)
    else do
      mkDateFields (← digitsToNat? c) (← digitsToNat? a) (← digitsToNat? b)
  | [_] =>
    match splitOnChar '.' cs with
    | [a, b, c] => do
      mkDateFields (← digitsToNat? c) (← digitsToNat? a) (← digitsToNat? b)
    | _ => none
  | _ => none

/-- Reads the D,YYYY remainder of a month-name date such as Dec 31,2008. -/
def parseMDY (m : Nat) (cs : List Char) : Option (Nat × Nat × Nat) :=
  match splitOnChar ',' cs with
  | [dcs, ycs] => do mkDateFields (← digitsToNat? ycs) m (← digitsToNat? dcs)
  | _ => none

/-- Modelled from the spec: the timestamp grammar of spec section 4.1,
a date grammar plus an optional time of day, absent time fields
defaulting to midnight; tokens are the space-separated words. -/
def parseTsTokens : List (List Char) → Option LocalDT
  | [d] => do
    let (y, mo, dd) ← parseDateFields d
    pure ⟨y, mo, dd, ⟨0, 0, 0, 0⟩⟩
  | [a, b] =>
    match monthFromName a with
    | some mo => do
      let (y, m2, dd) ← parseMDY mo b
      pure ⟨y, m2, dd, ⟨0, 0, 0, 0⟩⟩
    | none => do
      let (y, mo, dd) ← parseDateFields a
      let t ← parseTimeFields b
      pure ⟨y, mo, dd, t⟩
  | [a, b, c] => do
    let mo ← monthFromName a
    let (y, m2, dd) ← parseMDY mo b
    let t ← parseTimeFields c
    pure ⟨y, m2, dd, t⟩
  | _ => none

/-- Modelled from the spec: the date decode function of the value codec
(not part of the provided sources). -/
def decodeDate (s : String) : Except DecodeError PgDate :=
  match words s.data with
  | [d] =>
    match parseDateFields d with
    | some (y, mo, dd) => .ok ⟨y, mo, dd⟩
    | none => .error .FormatError
  | [a, b] =>
    match monthFromName a with
    | some mo =>
      match parseMDY mo b with
      | some (y, m2, dd) => .ok ⟨y, m2, dd⟩
      | none => .error .FormatError
    | none => .error .FormatError
  | _ => .error .FormatError

/-- Modelled from the spec: the time decode function of the value codec
(not part of the provided sources); HH:MM:SS with optional fractional
field and the 24:00:00 end-of-day sentinel. -/
def decodeTime (s : String) : Except DecodeError TimeOfDay :=
  match words s.data with
  | [t] =>
    match parseTimeFields t with
    | some tod => .ok tod
    | none => .error .FormatError
  | _ => .error .FormatError

/-- UTC normalization of a local time of day by a fixed offset in
minutes, wrapping around midnight; the microsecond field is kept. -/
def normTimeUTC (t : TimeOfDay) (offMin : Int) : TimeOfDay :=
  ⟨((((t.hour * 3600 + t.minute * 60 + t.second : Nat) : Int) - offMin * 60) % 86400).toNat / 3600,
   ((((t.hour * 3600 + t.minute * 60 + t.second : Nat) : Int) - offMin * 60) % 86400).toNat / 60 % 60,
   ((((t.hour * 3600 + t.minute * 60 + t.second : Nat) : Int) - offMin * 60) % 86400).toNat % 60,
   t.microsecond⟩

/-- Modelled from the spec: the timetz decode function of the value
codec (not part of the provided sources); a time of day plus a timezone
token, normalized to UTC through the abbreviation table, an
unrecognized token failing with UnknownTimezoneError. -/
def decodeTimetz (s : String) : Except DecodeError TimeOfDay :=
  match words s.data with
  | [t, tzTok] =>
    match parseTimeFields t with
    | none => .error .FormatError
    | some tod =>
      match lookupTz tzTok with
      | none => .error .UnknownTimezoneError
      | some off => .ok (normTimeUTC tod off)
  | _ => .error .FormatError

/-- Seconds since the Unix epoch of local date and time fields. -/
def localAbsSeconds (f : LocalDT) : Int :=
  daysFromCivil (f.year : Int) (f.month : Int) (f.day : Int) * 86400
    + (f.t.hour : Int) * 3600 + (f.t.minute : Int) * 60 + (f.t.second : Int)

/-- UTC instant of local date and time fields at a fixed offset in
minutes: the absolute second count is shifted by the offset and split
back into civil UTC fields. -/
def utcOfLocal (f : LocalDT) (offMin : Int) : PgDatetime :=
  ⟨civilYearI ((localAbsSeconds f - offMin * 60) / 86400),
   civilMonthI ((localAbsSeconds f - offMin * 60) / 86400),
   civilDayI ((localAbsSeconds f - offMin * 60) / 86400),
   (localAbsSeconds f - offMin * 60) % 86400 / 3600,
   (localAbsSeconds f - offMin * 60) % 86400 / 60 % 60,
   (localAbsSeconds f - offMin * 60) % 86400 % 60,
   (f.t.microsecond : Int)⟩

/-- Seconds since the Unix epoch denoted by a decoded UTC instant. -/
def absSeconds (v : PgDatetime) : Int :=
  daysFromCivil v.year v.month v.day * 86400
    + v.hour * 3600 + v.minute * 60 + v.second

/-- Modelled from the spec: the timestamptz decode function of the
value codec (not part of the provided sources); a timestamp grammar
plus a trailing timezone token, the result being the equivalent instant
expressed in UTC (spec section 4.1). -/
def decodeTimestamptz (s : String) : Except DecodeError PgDatetime :=
  if (words s.data).length < 2 then .error .FormatError
  else
    match parseTsTokens (words s.data).dropLast with
    | none => .error .FormatError
    | some f =>
      match lookupTz ((words s.data).getLastD []) with
      | none => .error .UnknownTimezoneError
      | some off => .ok (utcOfLocal f off)

/-- Seconds within the day denoted by a time of day. -/
def todSecs (t : TimeOfDay) : Int :=
  (t.hour : Int) * 3600 + (t.minute : Int) * 60 + (t.second : Int)

theorem digitChar_isDigit {k : Nat} (h : k < 10) : (digitChar k).isDigit = true := by
  interval_cases k <;> decide

theorem digitChar_toNat {k : Nat} (h : k < 10) : (digitChar k).toNat = 48 + k := by
  interval_cases k <;> decide

theorem natDigits_ne_nil (n : Nat) : natDigits n ≠ [] := by
  rw [natDigits]
  split <;> simp

theorem natDigits_all_digit (n : Nat) : ∀ c ∈ natDigits n, c.isDigit = true := by
  induction n using Nat.strong_induction_on with
  | _ n ih =>
    rw [natDigits]
    split
    · intro c hc
      simp only [List.mem_singleton] at hc
      subst hc
      exact digitChar_isDigit (by omega)
    · intro c hc
      rw [List.mem_append] at hc
      rcases hc with hc | hc
      · exact ih (n / 10) (Nat.div_lt_self (by omega) (by decide)) c hc
      · simp only [List.mem_singleton] at hc
        subst hc
        exact digitChar_isDigit (Nat.mod_lt _ (by decide))

theorem digitsToNat?_natDigits (n : Nat) : digitsToNat? (natDigits n) = some n := by
  have key : ∀ m : Nat, (natDigits m).foldl (fun a c => a * 10 + (c.toNat - 48)) 0 = m := by
    intro m
    induction m using Nat.strong_induction_on with
    | _ m ih =>
      rw [natDigits]
      split
      · simp only [List.foldl_cons, List.foldl_nil]
        rw [digitChar_toNat (by omega)]
        omega
      · rw [List.foldl_append, ih (m / 10) (Nat.div_lt_self (by omega) (by decide))]
        simp only [List.foldl_cons, List.foldl_nil]
        rw [digitChar_toNat (Nat.mod_lt _ (by decide))]
        omega
  unfold digitsToNat?
  rw [if_neg (by simp [natDigits_ne_nil n]), if_pos (by
    rw [List.all_eq_true]
    intro c hc
    exact natDigits_all_digit n c hc), key]

theorem natDigits_length_pos (n : Nat) : 0 < (natDigits n).length := by
  have := natDigits_ne_nil n
  cases h : natDigits n with
  | nil => exact absurd h this
  | cons a l => simp

theorem natDigits_length_ge_three {n : Nat} (h : 100 ≤ n) : 2 < (natDigits n).length := by
  rw [natDigits, dif_neg (by omega), natDigits, dif_neg (by omega)]
  simp only [List.length_append, List.length_singleton]
  have := natDigits_length_pos (n / 10 / 10)
  omega

theorem splitOnChar_nosep {sep : Char} {cs : List Char} (h : ∀ c ∈ cs, c ≠ sep) :
    splitOnChar sep cs = [cs] := by
  induction cs with
  | nil => rfl
  | cons a l ih =>
    simp only [splitOnChar]
    rw [if_neg (h a (by simp)), ih (fun c hc => h c (by simp [hc]))]

theorem splitOnChar_append {sep : Char} {xs ys : List Char} (h : ∀ c ∈ xs, c ≠ sep) :
    splitOnChar sep (xs ++ sep :: ys) = xs :: splitOnChar sep ys := by
  induction xs with
  | nil => simp [splitOnChar]
  | cons a l ih =>
    simp only [List.cons_append, splitOnChar, List.append_eq]
    rw [if_neg (h a (by simp)), ih (fun c hc => h c (by simp [hc]))]

theorem yoeGo_lower (doe : Nat) : ∀ (fuel y : Nat), gN y ≤ doe → gN (yoeGo doe y fuel) ≤ doe := by
  intro fuel
  induction fuel with
  | zero => intro y hy; exact hy
  | succ fuel ih =>
    intro y hy
    rw [yoeGo]
    split
    · exact ih (y + 1) (by assumption)
    · exact hy

theorem yoeGo_le (doe : Nat) : ∀ (fuel y : Nat), yoeGo doe y fuel ≤ y + fuel := by
  intro fuel
  induction fuel with
  | zero => intro y; simp [yoeGo]
  | succ fuel ih =>
    intro y
    rw [yoeGo]
    split
    · have := ih (y + 1)
      omega
    · omega

theorem yoeGo_stop (doe : Nat) :
    ∀ (fuel y : Nat), yoeGo doe y fuel < y + fuel → doe < gN (yoeGo doe y fuel + 1) := by
  intro fuel
  induction fuel with
  | zero => intro y hy; simp [yoeGo] at hy
  | succ fuel ih =>
    intro y hy
    rw [yoeGo] at hy ⊢
    split
    · rename_i hcond
      rw [if_pos hcond] at hy
      exact ih (y + 1) (by omega)
    · rename_i hcond
      omega

theorem yoeOf_spec {doe : Nat} (h : doe < 146097) :
    gN (yoeOf doe) ≤ doe ∧ doe - gN (yoeOf doe) ≤ 365 ∧ yoeOf doe ≤ 399 := by
  have hlow : gN (yoeOf doe) ≤ doe := yoeGo_lower doe 399 0 (by simp [gN])
  have hle : yoeOf doe ≤ 399 := by
    have := yoeGo_le doe 399 0
    unfold yoeOf
    omega
  refine ⟨hlow, ?_, hle⟩
  by_cases hcap : yoeOf doe < 399
  · have hstop : doe < gN (yoeOf doe + 1) := yoeGo_stop doe 399 0 (by unfold yoeOf at hcap; omega)
    have hstep : gN (yoeOf doe + 1) ≤ gN (yoeOf doe) + 366 := by unfold gN; omega
    omega
  · have h399 : yoeOf doe = 399 := by omega
    rw [h399]
    have : gN 399 = 145731 := by decide
    omega

theorem yoeI_spec (z : Int) : 0 ≤ yoeI z ∧ yoeI z ≤ 399 ∧
    365 * yoeI z + yoeI z / 4 - yoeI z / 100 ≤ (z + 719468) % 146097 ∧
    (z + 719468) % 146097 - (365 * yoeI z + yoeI z / 4 - yoeI z / 100) ≤ 365 := by
  obtain ⟨ha, hb, hc⟩ := @yoeOf_spec (((z + 719468) % 146097).toNat) (by omega)
  unfold yoeI
  unfold gN at ha hb
  omega

theorem daysFromCivil_shift (era yoe m d : Int) (h0 : 0 ≤ yoe) (h1 : yoe ≤ 399)
    (hm : 3 ≤ m) :
    daysFromCivil (era * 400 + yoe) m d =
      era * 146097 + 365 * yoe + yoe / 4 - yoe / 100 + (153 * (m - 3) + 2) / 5
        + d - 1 - 719468 := by
  unfold daysFromCivil
  split_ifs <;> omega

theorem daysFromCivil_shift2 (era yoe m d : Int) (h0 : 0 ≤ yoe) (h1 : yoe ≤ 399)
    (hm1 : 1 ≤ m) (hm : m ≤ 2) :
    daysFromCivil (era * 400 + yoe + 1) m d =
      era * 146097 + 365 * yoe + yoe / 4 - yoe / 100 + (153 * (m + 9) + 2) / 5
        + d - 1 - 719468 := by
  unfold daysFromCivil
  split_ifs <;> omega

theorem days_roundtrip (z : Int) :
    daysFromCivil (civilYearI z) (civilMonthI z) (civilDayI z) = z := by
  obtain ⟨hA, hB, hC, hD⟩ := yoeI_spec z
  have hmp : 0 ≤ mpI z ∧ mpI z ≤ 11 ∧ (153 * mpI z + 2) / 5 ≤ doyI z := by
    unfold mpI doyI at *
    omega
  by_cases hm : mpI z < 10
  · have hcm : civilMonthI z = mpI z + 3 := by unfold civilMonthI; rw [if_pos hm]
    have hcy : civilYearI z = eraOf z * 400 + yoeI z := by
      unfold civilYearI
      rw [hcm, if_neg (by omega), add_zero]
    rw [hcy, hcm, daysFromCivil_shift _ _ _ _ hA hB (by omega)]
    unfold civilDayI mpI doyI eraOf at *
    omega
  · have hcm : civilMonthI z = mpI z - 9 := by unfold civilMonthI; rw [if_neg hm]
    have hcy : civilYearI z = eraOf z * 400 + yoeI z + 1 := by
      unfold civilYearI
      rw [hcm, if_pos (by omega)]
    rw [hcy, hcm, daysFromCivil_shift2 _ _ _ _ hA hB (by omega) (by omega)]
    unfold civilDayI mpI doyI eraOf at *
    omega

theorem localtime_abs (tzOff ticks : Int) :
    tmAbsSeconds (localtime tzOff ticks) = ticks + tzOff := by
  unfold tmAbsSeconds localtime
  simp only
  rw [days_roundtrip]
  omega

theorem absSeconds_utcOfLocal (f : LocalDT) (offMin : Int) :
    absSeconds (utcOfLocal f offMin) = localAbsSeconds f - offMin * 60 := by
  unfold absSeconds utcOfLocal
  simp only
  rw [days_roundtrip]
  omega

theorem todSecs_normTimeUTC (t : TimeOfDay) (offMin : Int) :
    todSecs (normTimeUTC t offMin) = (todSecs t - offMin * 60) % 86400 := by
  unfold todSecs normTimeUTC
  simp only
  omega

theorem string_data_mk (l : List Char) : (String.mk l).data = l := rfl

theorem digit_ne {c d : Char} (hc : c.isDigit = true) (hd : ¬ d.isDigit = true) :
    c ≠ d := by
  intro he
  rw [he] at hc
  exact hd hc

/-- Claim C2: boolean decode is a case-insensitive match over fixed
synonym sets; TRUE, t, true, y, yes, 1 decode to true, FALSE, f, false,
n, no, 0 decode to false, and every other input (for example maybe)
fails with FormatError. -/
theorem bool_synonyms :
    (∀ s : String, decodeBool s = .ok true ↔ lowerL s.data ∈ trueSyns) ∧
    (∀ s : String, decodeBool s = .ok false ↔ lowerL s.data ∈ falseSyns) ∧
    (∀ s : String, lowerL s.data ∉ trueSyns → lowerL s.data ∉ falseSyns →
      decodeBool s = .error .FormatError) ∧
    decodeBool "TRUE" = .ok true ∧ decodeBool "t" = .ok true ∧
    decodeBool "true" = .ok true ∧ decodeBool "y" = .ok true ∧
    decodeBool "yes" = .ok true ∧ decodeBool "1" = .ok true ∧
    decodeBool "FALSE" = .ok false ∧ decodeBool "f" = .ok false ∧
    decodeBool "false" = .ok false ∧ decodeBool "n" = .ok false ∧
    decodeBool "no" = .ok false ∧ decodeBool "0" = .ok false ∧
    decodeBool "maybe" = .error .FormatError := by
  have hdisj : ∀ x ∈ trueSyns, x ∉ falseSyns := by decide
  refine ⟨?_, ?_, ?_, ?_, ?_, ?_, ?_, ?_, ?_, ?_, ?_, ?_, ?_, ?_, ?_, ?_⟩
  · intro s; unfold decodeBool; split_ifs <;> simp_all
  · intro s
    unfold decodeBool
    split_ifs with h1 h2
    · have := hdisj _ h1; simp_all
    · simp_all
    · simp_all
  · intro s h1 h2; unfold decodeBool; rw [if_neg h1, if_neg h2]
  all_goals decide

/-- Witness for claim C2 at the concrete input maybe. -/
theorem bool_synonyms_witness :
    lowerL "maybe".data ∉ trueSyns ∧ lowerL "maybe".data ∉ falseSyns ∧
    decodeBool "maybe" = .error .FormatError :=
  ⟨by decide, by decide, bool_synonyms.2.2.1 "maybe" (by decide) (by decide)⟩

/-- Claim C3: the time text 24:00:00 decodes to the time of day
00:00:00 (end-of-day sentinel, not an overflow into the next day), and
the same normalization applies to the timetz input 24:00:00 WET. -/
theorem time_end_of_day_sentinel :
    decodeTime "24:00:00" = .ok ⟨0, 0, 0, 0⟩ ∧
    decodeTimetz "24:00:00 WET" = .ok ⟨0, 0, 0, 0⟩ := by
  constructor <;> decide

/-- Claim C6: the facade constructors Date, Time and Timestamp succeed
for every in-range combination of calendar fields, and out-of-range
fields such as month 13 fail with RangeError. -/
theorem constructors_total :
    (∀ y m d : Int, 1 ≤ y → y ≤ 9999 → 1 ≤ m → m ≤ 12 → 1 ≤ d → d ≤ daysInMonth y m →
      Date y m d = .ok ⟨y, m, d⟩) ∧
    (∀ h mi s : Int, 0 ≤ h → h ≤ 23 → 0 ≤ mi → mi ≤ 59 → 0 ≤ s → s ≤ 59 →
      Time h mi s = .ok ⟨h, mi, s, 0⟩) ∧
    (∀ y m d h mi s : Int, 1 ≤ y → y ≤ 9999 → 1 ≤ m → m ≤ 12 → 1 ≤ d →
      d ≤ daysInMonth y m → 0 ≤ h → h ≤ 23 → 0 ≤ mi → mi ≤ 59 → 0 ≤ s → s ≤ 59 →
      Timestamp y m d h mi s = .ok ⟨y, m, d, h, mi, s⟩) ∧
    Date 2020 13 1 = .error .RangeError ∧
    Time 24 0 0 = .error .RangeError ∧
    Timestamp 2020 13 1 0 0 0 = .error .RangeError := by
  refine ⟨?_, ?_, ?_, by decide, by decide, by decide⟩
  · intro y m d h1 h2 h3 h4 h5 h6
    unfold Date
    rw [if_pos (by tauto)]
  · intro h mi s h1 h2 h3 h4 h5 h6
    unfold Time
    rw [if_pos (by tauto)]
  · intro y m d h mi s h1 h2 h3 h4 h5 h6 h7 h8 h9 h10 h11 h12
    unfold Timestamp
    rw [if_pos (by tauto)]

/-- Witness for claim C6 at concrete in-range inputs, including the
leap day 2020-02-29. -/
theorem constructors_total_witness :
    Date 2020 2 29 = .ok ⟨2020, 2, 29⟩ ∧
    Time 23 59 59 = .ok ⟨23, 59, 59, 0⟩ ∧
    Timestamp 2020 2 29 23 59 59 = .ok ⟨2020, 2, 29, 23, 59, 59⟩ :=
  ⟨constructors_total.1 2020 2 29 (by norm_num) (by norm_num) (by norm_num) (by norm_num)
      (by norm_num) (by decide),
   constructors_total.2.1 23 59 59 (by norm_num) (by norm_num) (by norm_num) (by norm_num)
      (by norm_num) (by norm_num),
   constructors_total.2.2.1 2020 2 29 23 59 59 (by norm_num) (by norm_num) (by norm_num)
      (by norm_num) (by norm_num) (by decide) (by norm_num) (by norm_num) (by norm_num)
      (by norm_num) (by norm_num) (by norm_num)⟩

/-- Claim C7: integer decode respects exact bit-width boundaries for
int2, int4 and int8: each accepts its minimum and maximum and rejects
the values one beyond them with RangeError. -/
theorem int_decode_boundaries :
    decodeInt2 "-32768" = .ok (-32768) ∧ decodeInt2 "32767" = .ok 32767 ∧
    decodeInt2 "-32769" = .error .RangeError ∧ decodeInt2 "32768" = .error .RangeError ∧
    decodeInt4 "-2147483648" = .ok (-2147483648) ∧
    decodeInt4 "2147483647" = .ok 2147483647 ∧
    decodeInt4 "-2147483649" = .error .RangeError ∧
    decodeInt4 "2147483648" = .error .RangeError ∧
    decodeInt8 "-9223372036854775808" = .ok (-9223372036854775808) ∧
    decodeInt8 "9223372036854775807" = .ok 9223372036854775807 ∧
    decodeInt8 "-9223372036854775809" = .error .RangeError ∧
    decodeInt8 "9223372036854775808" = .error .RangeError := by
  decide

/-- Claim C9: timetz decode reads the digits after the dot of the
seconds field as a literal microsecond count, so 22:44:54.18 CET yields
microsecond 18 (not 180000) and 22:44:54.189717 CET yields 189717. -/
theorem timetz_literal_microseconds :
    decodeTimetz "22:44:54.18 CET" = .ok ⟨21, 44, 54, 18⟩ ∧
    decodeTimetz "22:44:54.18 CET" ≠ .ok ⟨21, 44, 54, 180000⟩ ∧
    decodeTimetz "22:44:54.189717 CET" = .ok ⟨21, 44, 54, 189717⟩ := by
  refine ⟨by decide, by decide, by decide⟩

/-- Claim C10: Binary is the identity operation, returning every input
value unchanged. -/
theorem binary_identity : ∀ (α : Type) (v : α), Binary v = v :=
  fun _ _ => rfl

/-- Claim C8: decoding integer text into the numeric type yields an
exact arbitrary-precision decimal, never a binary floating-point
approximation: every natural number rendered in base 10 decodes to the
exact-integer decimal of that value, in particular 2147483647, whose
exact rational value is 2147483647; a fractional text keeps its scale. -/
theorem numeric_exact_decimal :
    (∀ n : Nat, decodeNumeric (String.mk (natDigits n)) = .ok ⟨(n : Int), 0⟩) ∧
    decodeNumeric "2147483647" = .ok ⟨2147483647, 0⟩ ∧
    decToRat ⟨2147483647, 0⟩ = 2147483647 ∧
    decodeNumeric "1.20" = .ok ⟨120, 2⟩ ∧
    decToRat ⟨120, 2⟩ = 6 / 5 := by
  refine ⟨?_, by decide, by norm_num [decToRat], by decide, by norm_num [decToRat]⟩
  intro n
  have hdig := natDigits_all_digit n
  have hhead : ¬ ((natDigits n).head? = some '-') := by
    cases hnd : natDigits n with
    | nil => exact absurd hnd (natDigits_ne_nil n)
    | cons c cs =>
      simp only [List.head?_cons, Option.some.injEq]
      intro hh
      have hc := hdig c (by rw [hnd]; exact List.mem_cons_self _ _)
      rw [hh] at hc
      exact absurd hc (by decide)
  have hnodot : splitOnChar '.' (natDigits n) = [natDigits n] :=
    splitOnChar_nosep (fun c hc => digit_ne (hdig c hc) (by decide))
  unfold decodeNumeric
  rw [string_data_mk, if_neg hhead, hnodot]
  simp [digitsToNat?_natDigits]

/-- Claim C4: date decode supports proleptic dates with no lower bound
on the year magnitude: for every year of at least three digits the text
year-01-12 decodes to that year, January 12; in particular 4713-01-12
decodes to year 4713, month 1, day 12. -/
theorem date_proleptic :
    (∀ y : Nat, 100 ≤ y →
      decodeDate (String.mk (natDigits y ++ "-01-12".data)) = .ok ⟨y, 1, 12⟩) ∧
    decodeDate "4713-01-12" = .ok ⟨4713, 1, 12⟩ := by
  constructor
  · intro y hy
    have hdig := natDigits_all_digit y
    have hrest : ∀ c ∈ "-01-12".data, c ≠ ' ' := by decide
    have hsp : ∀ c ∈ natDigits y ++ "-01-12".data, c ≠ ' ' := by
      intro c hc
      rcases List.mem_append.mp hc with h | h
      · exact digit_ne (hdig c h) (by decide)
      · exact hrest c h
    have hne : natDigits y ++ "-01-12".data ≠ [] := by
      intro he
      exact natDigits_ne_nil y (List.append_eq_nil.mp he).1
    have hwords : words (natDigits y ++ "-01-12".data) = [natDigits y ++ "-01-12".data] := by
      unfold words
      rw [splitOnChar_nosep hsp]
      simp [List.isEmpty_iff, hne]
    have hassoc : natDigits y ++ "-01-12".data =
        natDigits y ++ '-' :: (['0', '1'] ++ '-' :: ['1', '2']) := rfl
    have hsplit : splitOnChar '-' (natDigits y ++ "-01-12".data) =
        [natDigits y, ['0', '1'], ['1', '2']] := by
      rw [hassoc, splitOnChar_append (fun c hc => digit_ne (hdig c hc) (by decide)),
        (by decide : splitOnChar '-' (['0', '1'] ++ '-' :: ['1', '2']) = [['0', '1'], ['1', '2']])]
    have hpd : parseDateFields (natDigits y ++ "-01-12".data) = some (y, 1, 12) := by
      unfold parseDateFields
      rw [hsplit]
      simp [digitsToNat?_natDigits, natDigits_length_ge_three hy,
        (by decide : digitsToNat? ['0', '1'] = some 1),
        (by decide : digitsToNat? ['1', '2'] = some 12), mkDateFields, daysInMonthN]
    unfold decodeDate
    rw [string_data_mk, hwords]
    simp [hpd]
  · decide

/-- Witness for claim C4 at the concrete year 4713. -/
theorem date_proleptic_witness :
    decodeDate (String.mk (natDigits 4713 ++ "-01-12".data)) = .ok ⟨4713, 1, 12⟩ :=
  date_proleptic.1 4713 (by norm_num)

/-- Claim C1: every temporal raw value carrying a timezone token
decodes to the equivalent instant expressed in UTC: whenever a
timestamptz decode succeeds, the absolute second count of the result is
the local fields' second count shifted by the offset of the timezone
token, and likewise modulo one day for timetz; in particular the text
Dec 31,2008 18:20 US/Pacific decodes to the UTC instant
2009-01-01T02:20:00Z and the text 22:44:54 CET decodes to the UTC time
of day 21:44:54. -/
theorem tz_normalized_to_utc :
    (∀ (s : String) (v : PgDatetime), decodeTimestamptz s = .ok v →
      ∃ f off, parseTsTokens (words s.data).dropLast = some f ∧
        lookupTz ((words s.data).getLastD []) = some off ∧
        v = utcOfLocal f off ∧
        absSeconds v = localAbsSeconds f - off * 60 ∧
        v.microsecond = (f.t.microsecond : Int)) ∧
    (∀ (s : String) (v : TimeOfDay), decodeTimetz s = .ok v →
      ∃ tcs tzcs t off, words s.data = [tcs, tzcs] ∧
        parseTimeFields tcs = some t ∧ lookupTz tzcs = some off ∧
        v = normTimeUTC t off ∧
        todSecs v = (todSecs t - off * 60) % 86400 ∧
        v.microsecond = t.microsecond) ∧
    decodeTimestamptz "Dec 31,2008 18:20 US/Pacific" = .ok ⟨2009, 1, 1, 2, 20, 0, 0⟩ ∧
    decodeTimetz "22:44:54 CET" = .ok ⟨21, 44, 54, 0⟩ := by
  refine ⟨?_, ?_, by decide, by decide⟩
  · intro s v h
    unfold decodeTimestamptz at h
    by_cases hlen : (words s.data).length < 2
    · rw [if_pos hlen] at h
      simp at h
    · rw [if_neg hlen] at h
      split at h
      · simp at h
      · rename_i f hp
        split at h
        · simp at h
        · rename_i off hl
          simp only [Except.ok.injEq] at h
          subst h
          exact ⟨f, off, hp, hl, rfl, absSeconds_utcOfLocal f off, rfl⟩
  · intro s v h
    unfold decodeTimetz at h
    split at h
    · rename_i tcs tzcs hw
      split at h
      · simp at h
      · rename_i t hp
        split at h
        · simp at h
        · rename_i off hl
          simp only [Except.ok.injEq] at h
          subst h
          exact ⟨tcs, tzcs, t, off, hw, hp, hl, rfl, todSecs_normTimeUTC t off, rfl⟩
    · simp at h

/-- Witness for claim C1 at the concrete timestamptz input
Dec 31,2008 18:20 US/Pacific. -/
theorem tz_normalized_to_utc_witness :
    ∃ f off,
      parseTsTokens (words ("Dec 31,2008 18:20 US/Pacific").data).dropLast = some f ∧
      lookupTz ((words ("Dec 31,2008 18:20 US/Pacific").data).getLastD []) = some off ∧
      (⟨2009, 1, 1, 2, 20, 0, 0⟩ : PgDatetime) = utcOfLocal f off ∧
      absSeconds ⟨2009, 1, 1, 2, 20, 0, 0⟩ = localAbsSeconds f - off * 60 ∧
      (⟨2009, 1, 1, 2, 20, 0, 0⟩ : PgDatetime).microsecond = (f.t.microsecond : Int) :=
  tz_normalized_to_utc.1 "Dec 31,2008 18:20 US/Pacific" ⟨2009, 1, 1, 2, 20, 0, 0⟩ (by decide)

/-- Claim C5 counterexample: at the fractional ticks value -1/2 the
TimeFromTicks conversion does not truncate: CPython floors the float
before calling localtime, so the result is the time of 1969-12-31
23:59:59 (ticks -1), not the time of the truncated ticks value 0. -/
theorem ticks_frac_not_truncated :
    TimeFromTicksFrac 0 (-(1 : ℚ) / 2) ≠ TimeFromTicks 0 (ratTrunc (-(1 : ℚ) / 2)) ∧
    TimeFromTicksFrac 0 (-(1 : ℚ) / 2) = .ok ⟨23, 59, 59, 0⟩ ∧
    ratTrunc (-(1 : ℚ) / 2) = 0 ∧
    TimeFromTicks 0 0 = .ok ⟨0, 0, 0, 0⟩ := by
  have hq : -(1 : ℚ) / 2 = (⟨-1, 2, by decide, by decide⟩ : ℚ) := by
    rw [Rat.mk'_eq_divInt, Rat.divInt_eq_div]
    norm_num
  rw [hq]
  exact ⟨by decide, by decide, by decide, by decide⟩

/-- Claim C5 (amended): DateFromTicks, TimeFromTicks and
TimestampFromTicks convert the signed count of seconds since the Unix
epoch, interpreted in the local system timezone, into calendar fields
(the fields read back as the instant shifted by the local offset) and
delegate to the field-based constructors Date, Time and Timestamp; a
fractional ticks value is floored (rounded toward negative infinity),
never rounded to nearest, which coincides with truncation exactly for
the non-negative ticks values. -/
theorem ticks_constructors :
    (∀ tzOff ticks : Int, tmAbsSeconds (localtime tzOff ticks) = ticks + tzOff) ∧
    (∀ tzOff ticks : Int,
      DateFromTicks tzOff ticks = Date (localtime tzOff ticks).tm_year
          (localtime tzOff ticks).tm_mon (localtime tzOff ticks).tm_mday ∧
      TimeFromTicks tzOff ticks = Time (localtime tzOff ticks).tm_hour
          (localtime tzOff ticks).tm_min (localtime tzOff ticks).tm_sec ∧
      TimestampFromTicks tzOff ticks = Timestamp (localtime tzOff ticks).tm_year
          (localtime tzOff ticks).tm_mon (localtime tzOff ticks).tm_mday
          (localtime tzOff ticks).tm_hour (localtime tzOff ticks).tm_min
          (localtime tzOff ticks).tm_sec) ∧
    (∀ (tzOff : Int) (q : ℚ),
      DateFromTicksFrac tzOff q = DateFromTicks tzOff (pyTimeT q) ∧
      TimeFromTicksFrac tzOff q = TimeFromTicks tzOff (pyTimeT q) ∧
      TimestampFromTicksFrac tzOff q = TimestampFromTicks tzOff (pyTimeT q) ∧
      pyTimeT q = ⌊q⌋) ∧
    (∀ q : ℚ, 0 ≤ q → pyTimeT q = ratTrunc q) := by
  refine ⟨localtime_abs, fun tzOff ticks => ⟨rfl, rfl, rfl⟩, ?_, ?_⟩
  · intro tzOff q
    refine ⟨rfl, rfl, rfl, ?_⟩
    unfold pyTimeT
    rw [Rat.floor_def]
    exact Int.fdiv_eq_ediv _ (by positivity)
  · intro q hq
    have hn : 0 ≤ q.num := Rat.num_nonneg.mpr hq
    unfold pyTimeT ratTrunc
    rw [Int.fdiv_eq_ediv _ (Int.natCast_nonneg q.den),
      Int.tdiv_eq_ediv hn (Int.natCast_nonneg q.den)]

/-- Witness for claim C5 applying the floored conversion and the
non-negative truncation agreement at the concrete ticks value 5/2. -/
theorem ticks_constructors_witness :
    pyTimeT (⟨5, 2, by decide, by decide⟩ : ℚ) =
      ratTrunc (⟨5, 2, by decide, by decide⟩ : ℚ) ∧
    pyTimeT (⟨5, 2, by decide, by decide⟩ : ℚ) = 2 :=
  ⟨ticks_constructors.2.2.2 _ (by decide), by decide⟩
